import Mathlib

/-!
Verification of the post metadata contract of the `nanchano/blog` repository.

The repository contains the type declarations (`src/lib/types.ts`, plus an
unnamed duplicate file) and four markdown content files under `src/posts/`.
The `Validate` and `Enumerate` operations described by the specification are
performed by the external rendering framework and have no executable source in
the repository, so they are modelled here from the specification's words;
the type declarations and the content files' front-matter are transcribed
from the source.
-/

namespace Blog

/-- The closed tag enumeration, first variant:
`export type Tags = 'neovim' | 'alacritty' | 'tmux' | 'python' | 'go' |
'software-architecture' | 'design-patterns'` (src/src/lib/types.ts, first
document). -/
def TagsVariant1 : List String :=
  ["neovim", "alacritty", "tmux", "python", "go", "software-architecture",
   "design-patterns"]

/-- The second tag enumeration variant:
`export type Tags = 'test' | 'dev' | 'prod'` (src/src/lib/types.ts, second
document). -/
def TagsVariant2 : List String := ["test", "dev", "prod"]

/-- The third tag enumeration variant:
`export type Tags = 'neovim' | 'alacritty' | 'tmux'` (src/unnamed/part_000). -/
def TagsVariant3 : List String := ["neovim", "alacritty", "tmux"]

/-- The canonical closed tag enumeration: the first `Tags` declaration of
`src/src/lib/types.ts`. -/
def Tags : List String := TagsVariant1

/-- A field signature of a TypeScript record type: field name and the
source-level type annotation. -/
structure FieldSig where
  name : String
  ty : String
deriving DecidableEq, Repr

/-- The `Post` record of the first document of src/src/lib/types.ts,
transcribed field by field. -/
def postFieldsVariant1 : List FieldSig :=
  [⟨"title", "string"⟩, ⟨"slug", "string"⟩, ⟨"description", "string"⟩,
   ⟨"date", "string"⟩, ⟨"tags", "Tags[]"⟩, ⟨"published", "boolean"⟩]

/-- The `Post` record of the second document of src/src/lib/types.ts,
transcribed field by field. -/
def postFieldsVariant2 : List FieldSig :=
  [⟨"title", "string"⟩, ⟨"slug", "string"⟩, ⟨"description", "string"⟩,
   ⟨"date", "string"⟩, ⟨"tags", "Tags[]"⟩, ⟨"published", "boolean"⟩]

/-- The `Post` record of src/unnamed/part_000, transcribed field by field. -/
def postFieldsVariant3 : List FieldSig :=
  [⟨"title", "string"⟩, ⟨"slug", "string"⟩, ⟨"description", "string"⟩,
   ⟨"date", "string"⟩, ⟨"tags", "Tags[]"⟩, ⟨"published", "boolean"⟩]

/-- A validated blog post record, after the `Post` type of
src/src/lib/types.ts: `title`, `slug`, `description`, `date` are strings,
`tags` a list of tag labels, `published` a boolean. -/
structure Post where
  title : String
  slug : String
  description : String
  date : String
  tags : List String
  published : Bool
deriving DecidableEq, Repr

/-- A raw decoded front-matter record, before validation: every field may be
absent. -/
structure FrontMatter where
  title : Option String
  slug : Option String
  description : Option String
  date : Option String
  tags : Option (List String)
  published : Option Bool
deriving DecidableEq, Repr

/-- The single error kind of the contract: a `SchemaViolation` carries the
offending field name and the invalid value (spec section 7). -/
structure SchemaViolation where
  fieldName : String
  badValue : String
deriving DecidableEq, Repr

/-- Modelled from the spec: leap-year rule of the Gregorian calendar, used to
decide whether a `date` string "parses to a valid date". -/
def isLeapYear (y : Nat) : Bool :=
  (y % 4 == 0 && y % 100 != 0) || y % 400 == 0

/-- Modelled from the spec: number of days of month `m` of year `y`. -/
def daysInMonth (y m : Nat) : Nat :=
  if m == 2 then (if isLeapYear y then 29 else 28)
  else if m == 4 || m == 6 || m == 9 || m == 11 then 30
  else 31

/-- Split a character list at every dash, keeping empty segments, mirroring
splitting the string on `"-"`. -/
def splitDash : List Char → List (List Char)
  | [] => [[]]
  | c :: rest =>
    let r := splitDash rest
    if c == '-' then [] :: r
    else
      match r with
      | [] => [[c]]
      | g :: gs => (c :: g) :: gs

/-- The numeric value of a digit character list, most significant first. -/
def digitsVal (cs : List Char) : Nat :=
  cs.foldl (fun n c => n * 10 + (c.toNat - 48)) 0

/-- Parse a non-empty all-digit character list as a natural number. -/
def digitsToNat? (cs : List Char) : Option Nat :=
  if !cs.isEmpty && cs.all Char.isDigit then some (digitsVal cs) else none

/-- Modelled from the spec: parse a `date` string of the form
`year-month-day` into a numeric triple, failing when the string is not of
that form or does not denote a valid calendar date. -/
def parseDate (s : String) : Option (Nat × Nat × Nat) :=
  match splitDash s.data with
  | [ys, ms, ds] =>
    match digitsToNat? ys, digitsToNat? ms, digitsToNat? ds with
    | some y, some m, some d =>
      if 1 ≤ m && m ≤ 12 && 1 ≤ d && d ≤ daysInMonth y m then some (y, m, d)
      else none
    | _, _, _ => none
  | _ => none

/-- Modelled from the spec: `date` "parses to a valid date". -/
def dateParses (s : String) : Bool := (parseDate s).isSome

/-- Modelled from the spec: numeric sort key of a date string, for the
chronological ordering used by `Enumerate`; an unparseable date sorts last. -/
def dateKey (s : String) : Nat :=
  match parseDate s with
  | some (y, m, d) => y * 10000 + m * 100 + d
  | none => 0

/-- Membership of a tag label in the closed enumeration. -/
def tagOK (t : String) : Bool := Tags.contains t

/-- Modelled from the spec: `Validate(record) → Post | ValidationError`.
The repository contains no executable validator (src holds only the type
declarations and the content files); this follows spec sections 4.1, 7 and 8:
confirm every required field is present, confirm `tags` is a subset of the
closed enumeration, and confirm `date` parses as a date; on failure signal a
`SchemaViolation` naming the offending field, never defaulting. -/
def Validate (r : FrontMatter) : Except SchemaViolation Post :=
  match r.title with
  | none => .error ⟨"title", "missing"⟩
  | some title =>
    match r.slug with
    | none => .error ⟨"slug", "missing"⟩
    | some slug =>
      match r.description with
      | none => .error ⟨"description", "missing"⟩
      | some description =>
        match r.date with
        | none => .error ⟨"date", "missing"⟩
        | some date =>
          match r.tags with
          | none => .error ⟨"tags", "missing"⟩
          | some tags =>
            match r.published with
            | none => .error ⟨"published", "missing"⟩
            | some published =>
              match tags.find? (fun t => !tagOK t) with
              | some t => .error ⟨"tags", t⟩
              | none =>
                if dateParses date then
                  .ok ⟨title, slug, description, date, tags, published⟩
                else .error ⟨"date", date⟩

/-- The front-matter record holding exactly the fields of a `Post`; `Validate`
on it re-checks the post's own fields. -/
def recordOfPost (p : Post) : FrontMatter :=
  ⟨some p.title, some p.slug, some p.description, some p.date, some p.tags,
   some p.published⟩

/-- Modelled from the spec: the order used by `Enumerate`: `date` descending,
ties broken by `slug` ascending. -/
def postLE (p q : Post) : Bool :=
  dateKey q.date < dateKey p.date ||
    (dateKey p.date == dateKey q.date && decide (p.slug ≤ q.slug))

/-- Modelled from the spec: `Enumerate(posts)` filters to `published == true`
and orders by `date` descending, ties broken by `slug` ascending. -/
def Enumerate (posts : List Post) : List Post :=
  (posts.filter (·.published)).mergeSort postLE

instance : DecidableEq (Except SchemaViolation Post) := fun a b =>
  match a, b with
  | .ok x, .ok y =>
    if h : x = y then .isTrue (by simp [h]) else .isFalse (by simp [h])
  | .error x, .error y =>
    if h : x = y then .isTrue (by simp [h]) else .isFalse (by simp [h])
  | .ok _, .error _ => .isFalse (by simp)
  | .error _, .ok _ => .isFalse (by simp)

/-- The field named by a validation outcome, when it is a violation. -/
def violatedField : Except SchemaViolation Post → Option String
  | .error e => some e.fieldName
  | .ok _ => none

/-- A front-matter value as it appears in a content file: a string, a list of
strings, or a boolean. -/
inductive FMValue where
  | str (s : String)
  | list (l : List String)
  | bool (b : Bool)
deriving DecidableEq, Repr

/-- String-valued lookup in a front-matter block. -/
def lookupStr (fm : List (String × FMValue)) (k : String) : Option String :=
  match fm.lookup k with
  | some (.str s) => some s
  | _ => none

/-- List-valued lookup in a front-matter block. -/
def lookupList (fm : List (String × FMValue)) (k : String) :
    Option (List String) :=
  match fm.lookup k with
  | some (.list l) => some l
  | _ => none

/-- Boolean-valued lookup in a front-matter block. -/
def lookupBool (fm : List (String × FMValue)) (k : String) : Option Bool :=
  match fm.lookup k with
  | some (.bool b) => some b
  | _ => none

/-- A content file: its on-disk name and its front-matter block, transcribed
key by key in file order. -/
structure ContentFile where
  fileName : String
  fm : List (String × FMValue)
deriving DecidableEq, Repr

/-- Front-matter of src/src/posts/development_setup.md, transcribed. -/
def developmentSetupFile : ContentFile :=
  ⟨"development_setup.md",
   [("title", .str "My development setup featuring Alacritty, tmux and Neovim"),
    ("description", .str "My portable dev environment featuring alacritty, tmux and neovim"),
    ("date", .str "2023-9-28"),
    ("tags", .list ["alacritty", "neovim", "tmux"]),
    ("published", .bool true)]⟩

/-- Front-matter of src/src/posts/dynamic-factory-pattern.md, transcribed. -/
def dynamicFactoryPatternFile : ContentFile :=
  ⟨"dynamic-factory-pattern.md",
   [("title", .str "Dynamic Factory Design Pattern in Python"),
    ("description", .str "Creating dynamic object factories to avoid long if/switch chains"),
    ("date", .str "2023-10-12"),
    ("tags", .list ["python", "software-architecture", "design-patterns"]),
    ("published", .bool true)]⟩

/-- Front-matter of src/src/posts/neovim-config.md, transcribed. -/
def neovimConfigFile : ContentFile :=
  ⟨"neovim-config.md",
   [("title", .str "My Neovim configuration"),
    ("description", .str "My neovim config based on kickstart.nvim"),
    ("date", .str "2023-9-29"),
    ("tags", .list ["neovim"]),
    ("published", .bool true)]⟩

/-- Front-matter of src/src/posts/python-microservice.md, transcribed. -/
def pythonMicroserviceFile : ContentFile :=
  ⟨"python-microservice.md",
   [("title", .str "Simple and clean architecture for a Python Microservice"),
    ("description", .str "Build a simple, testable, scalable and maintainable microservice with Python leveraging FastAPI and SQLAlchemy."),
    ("date", .str "2023-11-2"),
    ("tags", .list ["python", "microservice", "clean-architecture"]),
    ("published", .bool true)]⟩

/-- The four content files of src/src/posts/. -/
def repoFiles : List ContentFile :=
  [developmentSetupFile, dynamicFactoryPatternFile, neovimConfigFile,
   pythonMicroserviceFile]

/-- Modelled from the spec: the slug is the content file's on-disk identifier
(the file name with its `.md` suffix removed); no front-matter block carries a
`slug` key, so it can only come from the file name. -/
def slugOfFile (f : ContentFile) : String :=
  ⟨f.fileName.data.take (f.fileName.data.length - 3)⟩

/-- Modelled from the spec: the decoded front-matter record of a content
file, as handed to `Validate`: each contract field read from the front-matter
block, the slug derived from the file name. -/
def decodedRecord (f : ContentFile) : FrontMatter :=
  { title := lookupStr f.fm "title"
    slug := some (slugOfFile f)
    description := lookupStr f.fm "description"
    date := lookupStr f.fm "date"
    tags := lookupList f.fm "tags"
    published := lookupBool f.fm "published" }

/-- Whether a validation outcome is a success. -/
def validationSucceeds : Except SchemaViolation Post → Bool
  | .ok _ => true
  | .error _ => false

/-! ### Helper lemmas about `Validate` -/

/-- `tagOK` decides membership in the enumeration. -/
theorem tagOK_iff (t : String) : tagOK t = true ↔ t ∈ Tags := by
  simp [tagOK]

/-- When every field is present, every tag is in the enumeration and the date
parses, `Validate` succeeds with exactly the given fields. -/
theorem validate_fields_some (title slug description date : String)
    (tags : List String) (published : Bool)
    (htags : tags.all (fun t => tagOK t) = true)
    (hdate : dateParses date = true) :
    Validate ⟨some title, some slug, some description, some date, some tags,
      some published⟩ = .ok ⟨title, slug, description, date, tags, published⟩ := by
  have hfind : tags.find? (fun t => !tagOK t) = none := by
    rw [List.find?_eq_none]
    intro x hx
    simp [List.all_eq_true.mp htags x hx]
  simp [Validate, hfind, hdate]

/-- Inversion: a successful validation forces the input record to hold
exactly the post's fields, with every tag in the enumeration and a parsing
date. -/
theorem validate_ok_inv (r : FrontMatter) (p : Post) (h : Validate r = .ok p) :
    r = recordOfPost p ∧ p.tags.all (fun t => tagOK t) = true ∧
      dateParses p.date = true := by
  obtain ⟨t?, s?, d?, dt?, tg?, pb?⟩ := r
  cases t? with
  | none => exact absurd h (by simp [Validate])
  | some title =>
  cases s? with
  | none => exact absurd h (by simp [Validate])
  | some slug =>
  cases d? with
  | none => exact absurd h (by simp [Validate])
  | some description =>
  cases dt? with
  | none => exact absurd h (by simp [Validate])
  | some date =>
  cases tg? with
  | none => exact absurd h (by simp [Validate])
  | some tags =>
  cases pb? with
  | none => exact absurd h (by simp [Validate])
  | some published =>
  cases hfind : tags.find? (fun t => !tagOK t) with
  | some bad => simp [Validate, hfind] at h
  | none =>
    simp only [Validate, hfind] at h
    by_cases hd : dateParses date = true
    · rw [if_pos hd] at h
      simp only [Except.ok.injEq] at h
      subst h
      refine ⟨rfl, ?_, hd⟩
      rw [List.all_eq_true]
      intro x hx
      have hx2 := List.find?_eq_none.mp hfind x hx
      simpa using hx2
    · rw [if_neg hd] at h
      exact absurd h (by simp)

/-! ### Order lemmas for `Enumerate` -/

/-- `postLE` in propositional form: date descending, ties by slug
ascending. -/
theorem postLE_iff (p q : Post) :
    postLE p q = true ↔
      dateKey q.date < dateKey p.date ∨
        (dateKey p.date = dateKey q.date ∧ p.slug ≤ q.slug) := by
  simp [postLE]

/-- The `Enumerate` order is transitive. -/
theorem postLE_le_trans (a b c : Post) (hab : postLE a b) (hbc : postLE b c) :
    postLE a c := by
  rw [postLE_iff] at hab hbc ⊢
  rcases hab with h1 | ⟨h1, h1s⟩ <;> rcases hbc with h2 | ⟨h2, h2s⟩
  · exact Or.inl (by omega)
  · exact Or.inl (by omega)
  · exact Or.inl (by omega)
  · exact Or.inr ⟨h1.trans h2, le_trans h1s h2s⟩

/-- The `Enumerate` order is total. -/
theorem postLE_le_total (a b : Post) : postLE a b || postLE b a := by
  rw [Bool.or_eq_true, postLE_iff, postLE_iff]
  rcases Nat.lt_trichotomy (dateKey a.date) (dateKey b.date) with h | h | h
  · exact Or.inr (Or.inl h)
  · rcases le_total a.slug b.slug with hs | hs
    · exact Or.inl (Or.inr ⟨h, hs⟩)
    · exact Or.inr (Or.inr ⟨h.symm, hs⟩)
  · exact Or.inl (Or.inl h)

/-! ### Claims -/

/-- C1: a decoded front-matter record with a tags entry outside the closed
enumeration is never accepted by `Validate`; with all required fields present
it fails with a `SchemaViolation` naming the field `tags`. -/
theorem validate_rejects_unknown_tag :
    (∀ (r : FrontMatter) (tags : List String) (t : String),
        r.tags = some tags → t ∈ tags → t ∉ Tags →
        validationSucceeds (Validate r) = false) ∧
    (∀ (title slug description date : String) (tags : List String)
        (published : Bool) (t : String), t ∈ tags → t ∉ Tags →
        violatedField (Validate ⟨some title, some slug, some description,
          some date, some tags, some published⟩) = some "tags") := by
  constructor
  · intro r tags t hrt hmem hnot
    cases hv : Validate r with
    | error e => rfl
    | ok p =>
      exfalso
      obtain ⟨hr, hall, -⟩ := validate_ok_inv r p hv
      apply hnot
      have hpt : p.tags = tags := by
        rw [hr] at hrt
        simpa [recordOfPost] using hrt
      have hc := List.all_eq_true.mp hall t (by rw [hpt]; exact hmem)
      exact (tagOK_iff t).mp hc
  · intro title slug description date tags published t hmem hnot
    cases hfind : tags.find? (fun t => !tagOK t) with
    | none =>
      exfalso
      have hx := List.find?_eq_none.mp hfind t hmem
      simp only [Bool.not_eq_true'] at hx
      exact hnot ((tagOK_iff t).mp (by simpa using hx))
    | some bad =>
      simp [Validate, hfind, violatedField]

/-- C1 witness: the spec's example record with the out-of-enumeration tag
`rust` fails naming `tags`. -/
theorem validate_rejects_unknown_tag_witness :
    violatedField (Validate ⟨some "A", some "a", some "d", some "2023-09-28",
      some ["rust"], some true⟩) = some "tags" :=
  validate_rejects_unknown_tag.2 "A" "a" "d" "2023-09-28" ["rust"] true "rust"
    (by decide) (by decide)

/-- C3: for every valid decoded front-matter record — all fields present,
tags a subset of the closed enumeration, date parsing — `Validate` succeeds
and returns a `Post` whose fields equal the input verbatim. -/
theorem validate_roundtrip_identity (title slug description date : String)
    (tags : List String) (published : Bool)
    (htags : ∀ t ∈ tags, t ∈ Tags) (hdate : dateParses date = true) :
    Validate ⟨some title, some slug, some description, some date, some tags,
      some published⟩ = .ok ⟨title, slug, description, date, tags, published⟩ := by
  apply validate_fields_some
  · rw [List.all_eq_true]
    intro x hx
    exact (tagOK_iff x).mpr (htags x hx)
  · exact hdate

/-- C3 witness: the spec's example record validates to the identical post. -/
theorem validate_roundtrip_identity_witness :
    Validate ⟨some "A", some "a", some "d", some "2023-09-28", some ["neovim"],
      some true⟩ = .ok ⟨"A", "a", "d", "2023-09-28", ["neovim"], true⟩ :=
  validate_roundtrip_identity "A" "a" "d" "2023-09-28" ["neovim"] true
    (by decide) (by decide)

/-- C4: a decoded front-matter record missing `title`, `slug`, `description`,
`date` or `published` fails with a `SchemaViolation` naming that missing
field, and a record missing any of them is never accepted. -/
theorem validate_missing_field_fails :
    (∀ (slug description date : String) (tags : List String) (published : Bool),
        Validate ⟨none, some slug, some description, some date, some tags,
          some published⟩ = .error ⟨"title", "missing"⟩) ∧
    (∀ (title description date : String) (tags : List String) (published : Bool),
        Validate ⟨some title, none, some description, some date, some tags,
          some published⟩ = .error ⟨"slug", "missing"⟩) ∧
    (∀ (title slug date : String) (tags : List String) (published : Bool),
        Validate ⟨some title, some slug, none, some date, some tags,
          some published⟩ = .error ⟨"description", "missing"⟩) ∧
    (∀ (title slug description : String) (tags : List String) (published : Bool),
        Validate ⟨some title, some slug, some description, none, some tags,
          some published⟩ = .error ⟨"date", "missing"⟩) ∧
    (∀ (title slug description date : String) (tags : List String),
        Validate ⟨some title, some slug, some description, some date, some tags,
          none⟩ = .error ⟨"published", "missing"⟩) ∧
    (∀ r : FrontMatter,
        (r.title = none ∨ r.slug = none ∨ r.description = none ∨
          r.date = none ∨ r.published = none) →
        validationSucceeds (Validate r) = false) := by
  refine ⟨fun _ _ _ _ _ => rfl, fun _ _ _ _ _ => rfl, fun _ _ _ _ _ => rfl,
    fun _ _ _ _ _ => rfl, fun _ _ _ _ _ => rfl, ?_⟩
  intro r hmiss
  obtain ⟨t?, s?, d?, dt?, tg?, pb?⟩ := r
  cases t? <;> cases s? <;> cases d? <;> cases dt? <;> cases tg? <;> cases pb? <;>
    simp_all [Validate, validationSucceeds]

/-- C4 witness: a record with `title` absent is not accepted. -/
theorem validate_missing_field_fails_witness :
    validationSucceeds (Validate ⟨none, some "a", some "d", some "2023-09-28",
      some ["neovim"], some true⟩) = false :=
  validate_missing_field_fails.2.2.2.2.2
    ⟨none, some "a", some "d", some "2023-09-28", some ["neovim"], some true⟩
    (Or.inl rfl)

/-- C8: `Validate` is deterministic — equal inputs give equal results — and
idempotent: a successfully validated `Post`, fed back as a record, validates
to the same `Post`. -/
theorem validate_deterministic_idempotent :
    (∀ (r₁ r₂ : FrontMatter), r₁ = r₂ → Validate r₁ = Validate r₂) ∧
    (∀ (r : FrontMatter) (p : Post), Validate r = .ok p →
        Validate (recordOfPost p) = .ok p) := by
  refine ⟨fun r₁ r₂ h => h ▸ rfl, fun r p h => ?_⟩
  obtain ⟨-, hall, hd⟩ := validate_ok_inv r p h
  exact validate_fields_some p.title p.slug p.description p.date p.tags
    p.published hall hd

/-- C8 witness: re-validating the post obtained from the spec's example
record yields the same post. -/
theorem validate_deterministic_idempotent_witness :
    Validate (recordOfPost ⟨"A", "a", "d", "2023-09-28", ["neovim"], true⟩) =
      .ok ⟨"A", "a", "d", "2023-09-28", ["neovim"], true⟩ :=
  validate_deterministic_idempotent.2
    ⟨some "A", some "a", some "d", some "2023-09-28", some ["neovim"], some true⟩
    ⟨"A", "a", "d", "2023-09-28", ["neovim"], true⟩ (by decide)

/-- C2: validation outcome of the four content files' decoded front-matter:
three validate, but `python-microservice.md` fails — its tags
`microservice` and `clean-architecture` lie outside the closed enumeration,
so `Validate` rejects it with a `SchemaViolation` naming `tags`. -/
theorem content_files_validation_outcome :
    Validate (decodedRecord developmentSetupFile) =
        .ok ⟨"My development setup featuring Alacritty, tmux and Neovim",
          "development_setup",
          "My portable dev environment featuring alacritty, tmux and neovim",
          "2023-9-28", ["alacritty", "neovim", "tmux"], true⟩ ∧
      Validate (decodedRecord dynamicFactoryPatternFile) =
        .ok ⟨"Dynamic Factory Design Pattern in Python",
          "dynamic-factory-pattern",
          "Creating dynamic object factories to avoid long if/switch chains",
          "2023-10-12", ["python", "software-architecture", "design-patterns"],
          true⟩ ∧
      Validate (decodedRecord neovimConfigFile) =
        .ok ⟨"My Neovim configuration", "neovim-config",
          "My neovim config based on kickstart.nvim", "2023-9-29", ["neovim"],
          true⟩ ∧
      Validate (decodedRecord pythonMicroserviceFile) =
        .error ⟨"tags", "microservice"⟩ ∧
      "microservice" ∉ Tags ∧ "clean-architecture" ∉ Tags := by
  refine ⟨by decide, by decide, by decide, by decide, by decide, by decide⟩

/-- C5: `Enumerate` never emits a post with `published == false`: every
element of its output has `published == true`. -/
theorem enumerate_only_published (posts : List Post) :
    (Enumerate posts).all (fun p => p.published) = true := by
  rw [List.all_eq_true]
  intro p hp
  simp only [Enumerate] at hp
  have hmem := List.mem_mergeSort.mp hp
  simpa using (List.mem_filter.mp hmem).2

/-- C6: the output of `Enumerate` is sorted by date descending, with any two
posts of equal date in ascending slug order. -/
theorem enumerate_sorted_desc (posts : List Post) :
    (Enumerate posts).Pairwise (fun p q =>
      dateKey q.date < dateKey p.date ∨
        (dateKey p.date = dateKey q.date ∧ p.slug ≤ q.slug)) := by
  have h := List.sorted_mergeSort postLE_le_trans postLE_le_total
    (posts.filter (·.published))
  exact h.imp (fun hpq => (postLE_iff _ _).mp hpq)

/-- C7: the slugs of the four content files are the on-disk identifiers
(file name without the `.md` suffix), pairwise distinct, and each decoded
record carries exactly that slug. -/
theorem slugs_unique_and_match_file :
    repoFiles.map slugOfFile =
        ["development_setup", "dynamic-factory-pattern", "neovim-config",
         "python-microservice"] ∧
      (repoFiles.map slugOfFile).Pairwise (· ≠ ·) ∧
      repoFiles.all
        (fun f => (decodedRecord f).slug == some (slugOfFile f)) = true := by
  refine ⟨by decide, by decide, by decide⟩

/-- C9: the three `Post` record declarations are structurally identical —
the same six fields with the same source types — while the three `Tags`
enumerations denote three pairwise distinct sets; `python` belongs to the
first enumeration and to neither of the other two. -/
theorem type_variants_shape :
    (postFieldsVariant1 = postFieldsVariant2 ∧
        postFieldsVariant2 = postFieldsVariant3) ∧
      (TagsVariant1.toFinset ≠ TagsVariant2.toFinset ∧
        TagsVariant1.toFinset ≠ TagsVariant3.toFinset ∧
        TagsVariant2.toFinset ≠ TagsVariant3.toFinset) ∧
      ("python" ∈ TagsVariant1 ∧ "python" ∉ TagsVariant2 ∧
        "python" ∉ TagsVariant3) := by
  refine ⟨⟨by decide, by decide⟩, ⟨by decide, by decide, by decide⟩,
    by decide, by decide, by decide⟩

/-- C10: every content file's front-matter block carries exactly the keys
`title`, `description`, `date`, `tags`, `published`, in that order; no block
carries a `slug` key. -/
theorem front_matter_keys_exact :
    developmentSetupFile.fm.map Prod.fst =
        ["title", "description", "date", "tags", "published"] ∧
      dynamicFactoryPatternFile.fm.map Prod.fst =
        ["title", "description", "date", "tags", "published"] ∧
      neovimConfigFile.fm.map Prod.fst =
        ["title", "description", "date", "tags", "published"] ∧
      pythonMicroserviceFile.fm.map Prod.fst =
        ["title", "description", "date", "tags", "published"] ∧
      repoFiles.all (fun f => !(f.fm.map Prod.fst).contains "slug") = true := by
  refine ⟨by decide, by decide, by decide, by decide, by decide⟩

end Blog
